import Mathlib

/-!
Shallow embedding of the user controller of the Shopiva backend
(`backend/controller/user.js`).

Modelling conventions:
* a mongoose document is a record; the `users` collection is a `List User`
  in insertion order; `findOne`/`findById` are `List.find?`;
* the image host (cloudinary) is the list of stored public ids, and the
  mail transport is the list of messages handed to `sendMail`;
* a state-mutating handler is a function returning the new state together
  with an `Except` result: `.error (message, status)` is what
  `next(new ErrorHandler(message, status))` produces, and an exception
  thrown inside the handler (absorbed by `catchAsyncErrors` and forwarded
  to the error middleware) is likewise an `.error`;
* `bcrypt`-style password comparison (`user.comparePassword`) is modelled
  as equality of the stored secret with the supplied one, hashing being
  delegated to a library;
* clock times are seconds as `Nat`.
-/

namespace Shopiva

/-- An image stored at the image host, as kept on a document
(`avatar: { public_id, url }`). -/
structure Avatar where
  public_id : String
  url : String
  deriving DecidableEq, Repr

/-- One entry of a user's address list.  `_id` is the subdocument
identifier, `addressType` the tag checked for uniqueness; `address1`
stands for the remaining content fields of the request body (country,
city, street, zip code), which the handlers copy verbatim. -/
structure Address where
  _id : String
  addressType : String
  address1 : String
  deriving DecidableEq, Repr

/-- A user document.  `avatar` is `none` when the account was created
without one; `createdAt` is the creation timestamp used by the admin
listing. -/
structure User where
  _id : String
  name : String
  email : String
  password : String
  phoneNumber : String
  avatar : Option Avatar
  addresses : List Address
  role : String
  createdAt : Nat
  deriving DecidableEq, Repr

/-- A message handed to `sendMail`. -/
structure Mail where
  email : String
  subject : String
  message : String
  deriving DecidableEq, Repr

/-- Backend state: the user collection, the image host's stored public
ids, and the sent mail. -/
structure St where
  db : List User
  cloud : List String
  mails : List Mail
  deriving DecidableEq, Repr

/-- Embeds `User.findOne({ email })`: the first document in insertion order with
this email. -/
def findOneByEmail (db : List User) (email : String) : Option User :=
  db.find? (fun u => u.email == email)

/-- Embeds `User.findById(id)`: the first document with this `_id`. -/
def findById (db : List User) (id : String) : Option User :=
  db.find? (fun u => u._id == id)

theorem findOneByEmail_eq_none {db : List User} {e : String} :
    findOneByEmail db e = none ↔ ∀ u ∈ db, u.email ≠ e := by
  simp [findOneByEmail, List.find?_eq_none]

theorem findOneByEmail_some {db : List User} {e : String} {u : User}
    (h : findOneByEmail db e = some u) : u ∈ db ∧ u.email = e := by
  refine ⟨List.mem_of_find?_eq_some h, ?_⟩
  have hp := List.find?_some h
  simpa using hp

theorem findById_some {db : List User} {i : String} {u : User}
    (h : findById db i = some u) : u ∈ db ∧ u._id = i := by
  refine ⟨List.mem_of_find?_eq_some h, ?_⟩
  have hp := List.find?_some h
  simpa using hp

/-- In a collection whose emails are pairwise distinct, two members with
the same email are the same document. -/
theorem email_unique_eq {db : List User}
    (h : db.Pairwise (fun u v => u.email ≠ v.email))
    {u v : User} (hu : u ∈ db) (hv : v ∈ db) (he : u.email = v.email) :
    u = v := by
  induction db with
  | nil => cases hu
  | cons a l ih =>
    rcases List.pairwise_cons.1 h with ⟨ha, hl⟩
    rcases List.mem_cons.1 hu with rfl | hu₂
    · rcases List.mem_cons.1 hv with rfl | hv₂
      · rfl
      · exact absurd he (ha v hv₂)
    · rcases List.mem_cons.1 hv with rfl | hv₂
      · exact absurd he.symm (ha u hu₂)
      · exact ih hl hu₂ hv₂

/-- Handler for `POST /login-user`: reject when email or password is missing (both
destructured from the body; the falsy check `!email || !password` is the
empty string in this model); look the user up by email; compare the
password; any mismatch — unknown email or wrong password — yields the
same `("Invalid credentials", 401)` error. -/
def loginUser (db : List User) (email password : String) :
    Except (String × Nat) User :=
  if email = "" ∨ password = "" then
    .error ("Please provide email and password", 400)
  else
    match findOneByEmail db email with
    | none => .error ("Invalid credentials", 401)
    | some user =>
      if user.password = password then .ok user
      else .error ("Invalid credentials", 401)

/-- C3: with both email and password supplied, login succeeds iff a user
with that email exists whose password matches exactly (email uniqueness
is the collection invariant); and a request naming a non-existent email
and a request naming an existing email with a wrong password produce the
identical `("Invalid credentials", 401)` error. -/
theorem loginUser_no_leakage (db : List User)
    (huniq : db.Pairwise (fun u v => u.email ≠ v.email)) :
    (∀ email password, email ≠ "" → password ≠ "" →
      ((loginUser db email password).isOk = true ↔
        ∃ u ∈ db, u.email = email ∧ u.password = password)) ∧
    (∀ e1 p1 e2 p2, e1 ≠ "" → p1 ≠ "" → e2 ≠ "" → p2 ≠ "" →
      (∀ u ∈ db, u.email ≠ e1) →
      (∃ u ∈ db, u.email = e2) →
      (∀ u ∈ db, u.email = e2 → u.password ≠ p2) →
      loginUser db e1 p1 = .error ("Invalid credentials", 401) ∧
      loginUser db e2 p2 = .error ("Invalid credentials", 401)) := by
  constructor
  · intro email password he hp
    unfold loginUser
    rw [if_neg (by simp [he, hp])]
    cases hf : findOneByEmail db email with
    | none =>
      simp only [Except.isOk]
      constructor
      · intro h; cases h
      · rintro ⟨u, hu, hue, -⟩
        exact absurd hue (findOneByEmail_eq_none.1 hf u hu)
    | some v =>
      obtain ⟨hvmem, hve⟩ := findOneByEmail_some hf
      dsimp only
      by_cases hpw : v.password = password
      · rw [if_pos hpw]
        exact ⟨fun _ => ⟨v, hvmem, hve, hpw⟩, fun _ => rfl⟩
      · rw [if_neg hpw]
        constructor
        · intro h; cases h
        · rintro ⟨u, hu, hue, hup⟩
          exact absurd (email_unique_eq huniq hu hvmem (hue.trans hve.symm) ▸ hup) hpw
  · intro e1 p1 e2 p2 he1 hp1 he2 hp2 hnone hex hbad
    constructor
    · unfold loginUser
      rw [if_neg (by simp [he1, hp1]), findOneByEmail_eq_none.2 hnone]
    · unfold loginUser
      rw [if_neg (by simp [he2, hp2])]
      cases hf : findOneByEmail db e2 with
      | none =>
        obtain ⟨u, hu, hue⟩ := hex
        exact absurd hue (findOneByEmail_eq_none.1 hf u hu)
      | some v =>
        obtain ⟨hvmem, hve⟩ := findOneByEmail_some hf
        dsimp only
        rw [if_neg (hbad v hvmem hve)]

/-- A concrete registered user. -/
def alice : User :=
  { _id := "id1", name := "A", email := "a@x.com", password := "p",
    phoneNumber := "", avatar := none, addresses := [], role := "user",
    createdAt := 0 }

theorem loginUser_no_leakage_witness :
    loginUser [alice] "b@x.com" "p" = .error ("Invalid credentials", 401) ∧
    loginUser [alice] "a@x.com" "q" = .error ("Invalid credentials", 401) :=
  (loginUser_no_leakage [alice] (by simp)).2 "b@x.com" "p" "a@x.com" "q"
    (by decide) (by decide) (by decide) (by decide)
    (by intro u hu; simp at hu; subst hu; decide)
    ⟨alice, by simp, by decide⟩
    (by intro u hu _; simp at hu; subst hu; decide)

/-- A JWT as produced by `jwt.sign({ user }, secret, { expiresIn: "5m" })`:
the payload (the full pending user document), the issue time `iat`, and
the signature, modelled as `mac` binding payload, issue time and secret.
A tampered token is one whose `mac` no longer matches its contents. -/
structure ActivationToken where
  user : User
  iat : Nat
  mac : User × Nat × String
  deriving DecidableEq, Repr

/-- Embeds `createActivationToken(user)` (user.js lines 65-69). -/
def createActivationToken (user : User) (secret : String) (now : Nat) :
    ActivationToken :=
  { user := user, iat := now, mac := (user, now, secret) }

/-- Embeds `jwt.verify(token, secret)` evaluated at time `now`: succeeds iff the
signature matches and the token has not outlived its 5-minute
(300-second) window; `jsonwebtoken` rejects once `now ≥ iat + 300`. -/
def jwtVerify (tok : ActivationToken) (secret : String) (now : Nat) :
    Option User :=
  if tok.mac = (tok.user, tok.iat, secret) ∧ now < tok.iat + 300 then
    some tok.user
  else none

/-- Embeds `cloudinary.uploader.upload(data, { folder: "avatars" })`, modelled
deterministically: the assigned public id is derived from the payload and
appended to the host's store. -/
def cloudUpload (cloud : List String) (data : String) : List String × Avatar :=
  let pid := "avatars/" ++ data
  (cloud ++ [pid],
   { public_id := pid, url := "https://res.cloudinary.com/" ++ pid })

/-- JS truthiness of the destructured `avatar` body field: absent
(`none`) and the empty string are falsy. -/
def truthyStr : Option String → Bool
  | none => false
  | some s => !(s == "")

/-- Handler for `POST /create-user` (user.js lines 13-62).  `newId` stands for the
ObjectId mongoose assigns to `new User(…)`; `now` stamps `createdAt` and
the activation token; fields absent from the request default to the
schema's empty values.  Mirrors the source order: duplicate-email check,
optional avatar upload, `user.save()` (the user document is written to
the collection), token creation, activation mail.  On success the issued
token is returned alongside the 201 response. -/
def createUser (s : St) (secret : String) (now : Nat) (newId : String)
    (name email password : String) (avatar : Option String) :
    St × Except (String × Nat) ActivationToken :=
  if (findOneByEmail s.db email).isSome then
    (s, .error ("User already exists", 400))
  else
    let up : List String × Option Avatar :=
      if truthyStr avatar then
        let r := cloudUpload s.cloud (avatar.getD "")
        (r.1, some r.2)
      else (s.cloud, none)
    let user : User :=
      { _id := newId, name := name, email := email, password := password,
        phoneNumber := "", avatar := up.2, addresses := [], role := "user",
        createdAt := now }
    let tok := createActivationToken user secret now
    let mail : Mail :=
      { email := email, subject := "Activate your account",
        message := "Hello " ++ name ++
          ", please click on the link to activate your account: " ++
          "http://localhost:3000/api/v2/activation/<token>" }
    ({ db := s.db ++ [user], cloud := up.1, mails := s.mails ++ [mail] },
     .ok tok)

/-- Handler for `POST /activation` (user.js lines 72-94).  A failed `jwt.verify`
throws and surfaces through `catchAsyncErrors` as an error (the
handler's own `if (!decoded)` branch is unreachable); then the handler
rejects when a user with the payload's email already exists, and
otherwise materializes the account with `User.create`. -/
def activation (s : St) (secret : String) (now : Nat)
    (tok : ActivationToken) : St × Except (String × Nat) User :=
  match jwtVerify tok secret now with
  | none => (s, .error ("jwt verification failed", 400))
  | some user =>
    if (findOneByEmail s.db user.email).isSome then
      (s, .error ("User already activated", 400))
    else
      ({ s with db := s.db ++ [user] }, .ok user)

/-- C5: a create-user request whose email is already registered fails
with the duplicate error whatever the rest of the payload, and the whole
state (collection, image host, mail) is returned unchanged. -/
theorem createUser_duplicate_email (s : St) (secret : String) (now : Nat)
    (newId name email password : String) (avatar : Option String)
    (u : User) (hu : u ∈ s.db) (he : u.email = email) :
    createUser s secret now newId name email password avatar =
      (s, .error ("User already exists", 400)) := by
  have hsome : (findOneByEmail s.db email).isSome := by
    rw [Option.isSome_iff_exists]
    cases hf : findOneByEmail s.db email with
    | none => exact absurd he (findOneByEmail_eq_none.1 hf u hu)
    | some v => exact ⟨v, rfl⟩
  unfold createUser
  rw [if_pos hsome]

theorem createUser_duplicate_email_witness :
    alice ∈ (St.mk [alice] [] []).db ∧ alice.email = "a@x.com" ∧
    createUser (St.mk [alice] [] []) "secret" 7 "id2" "B" "a@x.com" "q"
        (some "pic") =
      (St.mk [alice] [] [], .error ("User already exists", 400)) :=
  ⟨by simp, by decide,
   createUser_duplicate_email (St.mk [alice] [] []) "secret" 7 "id2" "B"
     "a@x.com" "q" (some "pic") alice (by simp) (by decide)⟩

/-- A successful activation puts the verified payload into the resulting
collection. -/
theorem activation_ok_mem {s s1 : St} {secret : String} {now : Nat}
    {tok : ActivationToken} {u : User}
    (h : activation s secret now tok = (s1, .ok u)) : u ∈ s1.db := by
  unfold activation at h
  cases hv : jwtVerify tok secret now with
  | none =>
    rw [hv] at h
    have := congrArg (fun p => p.2) h
    simp at this
  | some v =>
    rw [hv] at h
    dsimp only at h
    by_cases hex : (findOneByEmail s.db v.email).isSome
    · rw [if_pos hex] at h
      have := congrArg (fun p => p.2) h
      simp at this
    · rw [if_neg hex] at h
      have h2 := congrArg (fun p => p.2) h
      have hvu : v = u := by simpa using h2
      have h3 := congrArg (fun p => p.1.db) h
      simp only at h3
      rw [← h3, ← hvu]
      exact List.mem_append_right _ (by simp)

/-- C4: activation with a tampered or out-of-window token fails and
leaves the state unchanged; and once an activation for an email has
succeeded, any later activation attempt with a valid token carrying the
same email fails with the "User already activated" error. -/
theorem activation_expired_tampered_or_repeated (s : St) (secret : String) :
    (∀ now tok, tok.mac ≠ (tok.user, tok.iat, secret) ∨ tok.iat + 300 < now →
      activation s secret now tok =
        (s, .error ("jwt verification failed", 400))) ∧
    (∀ now1 tok1 s1 u1, activation s secret now1 tok1 = (s1, .ok u1) →
      ∀ now2 tok2 u2, jwtVerify tok2 secret now2 = some u2 →
        u2.email = u1.email →
        activation s1 secret now2 tok2 =
          (s1, .error ("User already activated", 400))) := by
  constructor
  · intro now tok hbad
    have hv : jwtVerify tok secret now = none := by
      unfold jwtVerify
      rw [if_neg]
      rintro ⟨hmac, hlt⟩
      rcases hbad with hm | hexp
      · exact hm hmac
      · omega
    unfold activation
    rw [hv]
  · intro now1 tok1 s1 u1 h1 now2 tok2 u2 hv2 hemail
    have hmem : u1 ∈ s1.db := activation_ok_mem h1
    have hsome : (findOneByEmail s1.db u2.email).isSome := by
      rw [Option.isSome_iff_exists]
      cases hf : findOneByEmail s1.db u2.email with
      | none => exact absurd hemail.symm (findOneByEmail_eq_none.1 hf u1 hmem)
      | some v => exact ⟨v, rfl⟩
    unfold activation
    rw [hv2]
    dsimp only
    rw [if_pos hsome]

theorem activation_expired_tampered_or_repeated_witness :
    activation (St.mk [] [] []) "secret" 301
        (createActivationToken alice "secret" 0) =
      (St.mk [] [] [], .error ("jwt verification failed", 400)) ∧
    activation (St.mk [alice] [] []) "secret" 10
        (createActivationToken alice "secret" 0) =
      (St.mk [alice] [] [], .error ("User already activated", 400)) := by
  constructor
  · exact (activation_expired_tampered_or_repeated (St.mk [] [] [])
      "secret").1 301 (createActivationToken alice "secret" 0)
      (Or.inr (by decide))
  · exact (activation_expired_tampered_or_repeated (St.mk [] [] [])
      "secret").2 0 (createActivationToken alice "secret" 0)
      (St.mk [alice] [] []) alice rfl 10
      (createActivationToken alice "secret" 0) alice (by decide) rfl

/-- The exact state `POST /create-user` on an empty backend produces for
the request `{name:"A", email:"a@x.com", password:"p"}`: the user
document is already in the collection. -/
def mailA : Mail :=
  { email := "a@x.com", subject := "Activate your account",
    message := "Hello A, please click on the link to activate your account: " ++
      "http://localhost:3000/api/v2/activation/<token>" }

/-- C1 (failing input): creating `a@x.com` on an empty backend saves the
user document at once (`user.save()`, user.js line 44), so the account is
immediately retrievable — login succeeds with no activation — and the
emailed activation token can only ever produce "User already activated". -/
theorem createUser_account_queryable_before_activation :
    createUser (St.mk [] [] []) "secret" 0 "id1" "A" "a@x.com" "p" none =
      (St.mk [alice] [] [mailA],
       .ok (createActivationToken alice "secret" 0)) ∧
    loginUser [alice] "a@x.com" "p" = .ok alice ∧
    findOneByEmail [alice] "a@x.com" = some alice ∧
    activation (St.mk [alice] [] [mailA]) "secret" 60
        (createActivationToken alice "secret" 0) =
      (St.mk [alice] [] [mailA], .error ("User already activated", 400)) := by
  refine ⟨rfl, rfl, by decide, rfl⟩

/-- Embeds `Object.assign(existsAddress, req.body)` on the first address whose
`_id` equals the body's: that entry becomes the body (every field of the
request is copied over it); all other entries are untouched. -/
def assignFirst (body : Address) : List Address → List Address
  | [] => []
  | a :: rest =>
    if a._id = body._id then body :: rest else a :: assignFirst body rest

/-- Handler for `PUT /update-user-addresses` (user.js lines 213-237).  `uid` is the
authenticated principal (`req.user.id`).  Rejects when some existing
address carries the body's `addressType`; otherwise updates the first
address with the body's `_id` in place, or pushes the body; then
`user.save()` writes the document back. -/
def updateUserAddresses (db : List User) (uid : String) (body : Address) :
    List User × Except (String × Nat) User :=
  match findById db uid with
  | none => (db, .error ("TypeError: user is null", 500))
  | some u =>
    if u.addresses.any (fun a => a.addressType == body.addressType) then
      (db, .error (body.addressType ++ " address already exists", 400))
    else
      let u2 : User :=
        { u with addresses :=
            if u.addresses.any (fun a => a._id == body._id) then
              assignFirst body u.addresses
            else u.addresses ++ [body] }
      (db.map (fun v => if v._id == uid then u2 else v), .ok u2)

theorem assignFirst_decomp (body : Address) :
    ∀ l : List Address, (∃ a ∈ l, a._id = body._id) →
      ∃ l1 a0 l2, l = l1 ++ a0 :: l2 ∧ a0._id = body._id ∧
        (∀ a ∈ l1, a._id ≠ body._id) ∧
        assignFirst body l = l1 ++ body :: l2 := by
  intro l
  induction l with
  | nil => rintro ⟨a, ha, -⟩; cases ha
  | cons a rest ih =>
    intro hex
    by_cases h : a._id = body._id
    · exact ⟨[], a, rest, by simp, h, by simp, by simp [assignFirst, h]⟩
    · have hex2 : ∃ b ∈ rest, b._id = body._id := by
        rcases hex with ⟨b, hb, hbid⟩
        rcases List.mem_cons.1 hb with rfl | hb2
        · exact absurd hbid h
        · exact ⟨b, hb2, hbid⟩
      obtain ⟨l1, a0, l2, hl, ha0, hl1, hres⟩ := ih hex2
      refine ⟨a :: l1, a0, l2, by simp [hl], ha0, ?_, ?_⟩
      · intro x hx
        rcases List.mem_cons.1 hx with rfl | hx2
        · exact h
        · exact hl1 x hx2
      · simp [assignFirst, h, hres]

/-- C2: for a user and an update-user-addresses body — a body whose
`addressType` is already taken fails with the duplicate-type error and
leaves the collection as returned; otherwise, when an address with the
body's `_id` exists, exactly the first such entry is replaced by the body
with every other entry (before and after) kept in place, and when none
exists the body is appended at the tail; the saved document replaces the
user's, all other users untouched. -/
theorem updateUserAddresses_upsert (db : List User) (uid : String)
    (body : Address) (u : User) (hu : findById db uid = some u) :
    ((∃ a ∈ u.addresses, a.addressType = body.addressType) →
      updateUserAddresses db uid body =
        (db, .error (body.addressType ++ " address already exists", 400))) ∧
    ((∀ a ∈ u.addresses, a.addressType ≠ body.addressType) →
      (∃ a ∈ u.addresses, a._id = body._id) →
      ∃ l1 a0 l2, u.addresses = l1 ++ a0 :: l2 ∧ a0._id = body._id ∧
        (∀ a ∈ l1, a._id ≠ body._id) ∧
        updateUserAddresses db uid body =
          (db.map (fun v => if v._id == uid then
              { u with addresses := l1 ++ body :: l2 } else v),
           .ok { u with addresses := l1 ++ body :: l2 })) ∧
    ((∀ a ∈ u.addresses, a.addressType ≠ body.addressType) →
      (∀ a ∈ u.addresses, a._id ≠ body._id) →
      updateUserAddresses db uid body =
        (db.map (fun v => if v._id == uid then
            { u with addresses := u.addresses ++ [body] } else v),
         .ok { u with addresses := u.addresses ++ [body] })) := by
  refine ⟨?_, ?_, ?_⟩
  · intro hdup
    unfold updateUserAddresses
    rw [hu]
    dsimp only
    rw [if_pos]
    rw [List.any_eq_true]
    obtain ⟨a, ha, hat⟩ := hdup
    exact ⟨a, ha, by simp [hat]⟩
  · intro hnodup hid
    obtain ⟨l1, a0, l2, hl, ha0, hl1, hres⟩ := assignFirst_decomp body u.addresses hid
    refine ⟨l1, a0, l2, hl, ha0, hl1, ?_⟩
    unfold updateUserAddresses
    rw [hu]
    dsimp only
    rw [if_neg, if_pos, hres]
    · rw [List.any_eq_true]
      obtain ⟨a, ha, hat⟩ := hid
      exact ⟨a, ha, by simp [hat]⟩
    · rw [List.any_eq_true]
      rintro ⟨a, ha, hat⟩
      exact hnodup a ha (by simpa using hat)
  · intro hnodup hnoid
    unfold updateUserAddresses
    rw [hu]
    dsimp only
    rw [if_neg, if_neg]
    · rw [List.any_eq_true]
      rintro ⟨a, ha, hat⟩
      exact hnoid a ha (by simpa using hat)
    · rw [List.any_eq_true]
      rintro ⟨a, ha, hat⟩
      exact hnodup a ha (by simpa using hat)

/-- A concrete user owning one Home address, for witnesses. -/
def bob : User :=
  { _id := "id9", name := "B", email := "b@x.com", password := "q",
    phoneNumber := "1", avatar := none,
    addresses := [{ _id := "adr1", addressType := "Home",
                    address1 := "1 Main St" }],
    role := "user", createdAt := 3 }

theorem updateUserAddresses_upsert_witness :
    updateUserAddresses [bob] "id9"
        { _id := "adr2", addressType := "Home", address1 := "2 Oak Av" } =
      ([bob], .error ("Home address already exists", 400)) :=
  (updateUserAddresses_upsert [bob] "id9"
      { _id := "adr2", addressType := "Home", address1 := "2 Oak Av" }
      bob (by decide)).1
    ⟨{ _id := "adr1", addressType := "Home", address1 := "1 Main St" },
     by simp [bob], rfl⟩

/-- The `$pull: { addresses: { _id: addressId } }` update on one user
document: every address entry whose `_id` matches is removed. -/
def pullAddress (aid : String) (u : User) : User :=
  { u with addresses := u.addresses.filter (fun a => !(a._id == aid)) }

/-- Handler for `DELETE /delete-user-address/:id` (user.js lines 240-255):
`User.updateOne({_id: userId}, { $pull: … })` rewrites the principal's
document, the updated user is fetched again, and a 200 success response
is sent unconditionally — there is no existence check. -/
def deleteUserAddress (db : List User) (uid aid : String) :
    List User × Except (String × Nat) (Option User) :=
  (db.map (fun v => if v._id == uid then pullAddress aid v else v),
   .ok (findById
     (db.map (fun v => if v._id == uid then pullAddress aid v else v)) uid))

theorem filter_self_idem {α : Type} (p : α → Bool) (l : List α) :
    (l.filter p).filter p = l.filter p := by
  induction l with
  | nil => rfl
  | cons a t ih =>
    cases hpa : p a with
    | true => simp [List.filter_cons, hpa, ih]
    | false => simp [List.filter_cons, hpa, ih]

theorem findById_replace (uid : String) (f : User → User)
    (hf : ∀ v, (f v)._id = v._id) (db : List User) :
    findById (List.map (fun v => if v._id == uid then f v else v) db) uid =
      Option.map (fun v => if v._id == uid then f v else v)
        (findById db uid) := by
  induction db with
  | nil => rfl
  | cons a t ih =>
    by_cases h : a._id = uid
    · simp [findById, List.find?_cons, h, hf]
    · simp only [List.map_cons, findById, List.find?_cons] at *
      have hbeq : (a._id == uid) = false := by simp [h]
      rw [if_neg (by simp [h])]
      rw [hbeq]
      dsimp only
      exact ih

/-- C7: delete-user-address always responds with success (no existence
check); the principal's document keeps exactly its addresses whose id
differs from the parameter, as a sublist (original relative order) of the
old list, with every other field intact; every position of the collection
holding a different document id is untouched; and running the same delete
twice equals running it once. -/
theorem deleteUserAddress_spec (db : List User) (uid aid : String) :
    ((deleteUserAddress db uid aid).2 =
      .ok (findById (deleteUserAddress db uid aid).1 uid)) ∧
    (∀ u, findById db uid = some u →
      ∃ u2, findById (deleteUserAddress db uid aid).1 uid = some u2 ∧
        u2.name = u.name ∧ u2.email = u.email ∧ u2.password = u.password ∧
        u2.phoneNumber = u.phoneNumber ∧ u2.avatar = u.avatar ∧
        u2._id = u._id ∧ u2.role = u.role ∧ u2.createdAt = u.createdAt ∧
        u2.addresses.Sublist u.addresses ∧
        (∀ a, a ∈ u2.addresses ↔ a ∈ u.addresses ∧ a._id ≠ aid)) ∧
    ((deleteUserAddress db uid aid).1.length = db.length) ∧
    (∀ i, ∀ h1 : i < db.length,
      ∀ h2 : i < (deleteUserAddress db uid aid).1.length,
      (db.get ⟨i, h1⟩)._id ≠ uid →
      (deleteUserAddress db uid aid).1.get ⟨i, h2⟩ = db.get ⟨i, h1⟩) ∧
    (deleteUserAddress (deleteUserAddress db uid aid).1 uid aid =
      deleteUserAddress db uid aid) := by
  refine ⟨rfl, ?_, ?_, ?_, ?_⟩
  · intro u hu
    have hid := (findById_some hu).2
    have hrep := findById_replace uid (pullAddress aid) (fun v => rfl) db
    refine ⟨pullAddress aid u, ?_, rfl, rfl, rfl, rfl, rfl, rfl, rfl, rfl,
      List.filter_sublist _, ?_⟩
    · show findById
          (db.map fun v => if v._id == uid then pullAddress aid v else v)
          uid = _
      rw [hrep, hu]
      simp [hid]
    · intro a
      simp [pullAddress, List.mem_filter]
  · simp [deleteUserAddress]
  · intro i h1 h2 hne
    simp only [deleteUserAddress] at h2 ⊢
    rw [List.get_map]
    rw [if_neg (by simpa using hne)]
  · have hfun : (fun v => if v._id == uid then pullAddress aid v else v) ∘
        (fun v => if v._id == uid then pullAddress aid v else v) =
        (fun v => if v._id == uid then pullAddress aid v else v) := by
      funext v
      by_cases h : v._id = uid
      · simp [Function.comp, pullAddress, h, filter_self_idem]
      · simp [Function.comp, h]
    unfold deleteUserAddress
    rw [List.map_map, hfun]

theorem deleteUserAddress_spec_witness :
    ∃ u2, findById (deleteUserAddress [bob] "id9" "adr1").1 "id9" = some u2 ∧
      u2.name = bob.name ∧ u2.email = bob.email ∧
      u2.password = bob.password ∧ u2.phoneNumber = bob.phoneNumber ∧
      u2.avatar = bob.avatar ∧ u2._id = bob._id ∧ u2.role = bob.role ∧
      u2.createdAt = bob.createdAt ∧ u2.addresses.Sublist bob.addresses ∧
      (∀ a, a ∈ u2.addresses ↔ a ∈ bob.addresses ∧ a._id ≠ "adr1") :=
  (deleteUserAddress_spec [bob] "id9" "adr1").2.1 bob (by decide)

/-- Embeds `cloudinary.uploader.destroy(public_id)`: the stored object with
this public id is removed from the host. -/
def cloudDestroy (cloud : List String) (pid : String) : List String :=
  cloud.filter (fun p => !(p == pid))

/-- Handler for `PUT /update-avatar` (user.js lines 182-210).  The principal's
document is fetched; when the body's avatar is not the empty string, the
current avatar's `public_id` is read (a `TypeError` when the user has no
avatar, surfaced by `catchAsyncErrors`), the old object destroyed, the
new payload uploaded, and the document's avatar replaced; then
`user.save()` and a 200 response with the user.  When the body's avatar
is the empty string nothing is modified and the unchanged user is saved
and returned. -/
def updateAvatar (db : List User) (cloud : List String) (uid : String)
    (avatarBody : String) :
    (List User × List String) × Except (String × Nat) User :=
  match findById db uid with
  | none => ((db, cloud), .error ("TypeError: user is null", 500))
  | some u =>
    if avatarBody = "" then
      ((db, cloud), .ok u)
    else
      match u.avatar with
      | none => ((db, cloud), .error ("TypeError: avatar is undefined", 500))
      | some old =>
        let r := cloudUpload (cloudDestroy cloud old.public_id) avatarBody
        let u2 : User := { u with avatar := some r.2 }
        ((db.map (fun v => if v._id == uid then u2 else v), r.1), .ok u2)

/-- C6 counterexample input: an authenticated user without an avatar. -/
def carol : User :=
  { _id := "id3", name := "C", email := "c@x.com", password := "r",
    phoneNumber := "", avatar := none, addresses := [], role := "user",
    createdAt := 1 }

/-- C6 counterexample: for a user with no stored avatar, a non-empty
update-avatar payload does not delete-and-upload with only the avatar
field changed — the handler throws reading `existsUser.avatar.public_id`
and nothing (user or image host) changes. -/
theorem updateAvatar_no_avatar_fails :
    updateAvatar [carol] [] "id3" "newpic" =
      (([carol], []), .error ("TypeError: avatar is undefined", 500)) := rfl

/-- C6 (amended): for an authenticated user, an empty avatar payload is
a no-op returning the unchanged user; a non-empty payload, when the user
has an avatar, destroys the old image-host object, uploads the new one
and changes only the avatar field of the saved document; and when the
user has no avatar the request fails with the state unchanged. -/
theorem updateAvatar_spec (db : List User) (cloud : List String)
    (uid body : String) (u : User) (hu : findById db uid = some u) :
    (body = "" → updateAvatar db cloud uid body = ((db, cloud), .ok u)) ∧
    (body ≠ "" → ∀ old, u.avatar = some old →
      updateAvatar db cloud uid body =
        ((db.map (fun v => if v._id == uid then
            { u with avatar := (Option.some
                (cloudUpload (cloudDestroy cloud old.public_id) body).2) }
          else v),
          (cloudUpload (cloudDestroy cloud old.public_id) body).1),
         .ok { u with avatar := (Option.some
            (cloudUpload (cloudDestroy cloud old.public_id) body).2) }) ∧
      old.public_id ∉ cloudDestroy cloud old.public_id ∧
      ("avatars/" ++ body) ∈
        (cloudUpload (cloudDestroy cloud old.public_id) body).1) ∧
    (body ≠ "" → u.avatar = none →
      updateAvatar db cloud uid body =
        ((db, cloud), .error ("TypeError: avatar is undefined", 500))) := by
  refine ⟨?_, ?_, ?_⟩
  · intro hb
    unfold updateAvatar
    rw [hu]
    dsimp only
    rw [if_pos hb]
  · intro hb old hold
    unfold updateAvatar
    rw [hu]
    dsimp only
    rw [if_neg hb, hold]
    refine ⟨rfl, ?_, ?_⟩
    · simp [cloudDestroy, List.mem_filter]
    · simp [cloudUpload]
  · intro hb hnone
    unfold updateAvatar
    rw [hu]
    dsimp only
    rw [if_neg hb, hnone]

theorem updateAvatar_spec_witness :
    updateAvatar [bob] ["avatars/old"] "id9" "" =
      (([bob], ["avatars/old"]), .ok bob) :=
  (updateAvatar_spec [bob] ["avatars/old"] "id9" "" bob (by decide)).1 rfl

/-- Handler for `PUT /update-user-info` (user.js lines 150-179).  `principalId` is
the authenticated principal attached by `isAuthenticated`; the handler
never consults it: the record is selected with
`User.findOne({ email })` from the body, the body's password is compared
against that record, and on match its name, email and phoneNumber are
overwritten and saved. -/
def updateUserInfo (db : List User) (principalId : String)
    (name email password phoneNumber : String) :
    List User × Except (String × Nat) User :=
  match findOneByEmail db email with
  | none => (db, .error ("User not found", 404))
  | some u =>
    if u.password = password then
      let u2 : User :=
        { u with name := name, email := email, phoneNumber := phoneNumber }
      (db.map (fun v => if v._id == u._id then u2 else v), .ok u2)
    else (db, .error ("Invalid credentials", 401))

/-- C9: update-user-info picks its record by the body's email, not the
authenticated principal — the outcome is the same whatever principal is
logged in, and whenever the body carries some account's email and
password, that account's name, email and phoneNumber are overwritten
(even when its id differs from the principal's). -/
theorem updateUserInfo_ignores_principal (db : List User)
    (p1 p2 name email password phoneNumber : String) :
    (updateUserInfo db p1 name email password phoneNumber =
      updateUserInfo db p2 name email password phoneNumber) ∧
    (∀ u, findOneByEmail db email = some u → u.password = password →
      updateUserInfo db p1 name email password phoneNumber =
        (db.map (fun v => if v._id == u._id then
            { u with name := name, email := email,
                     phoneNumber := phoneNumber } else v),
         .ok { u with name := name, email := email,
                      phoneNumber := phoneNumber })) := by
  refine ⟨rfl, ?_⟩
  intro u hu hpw
  unfold updateUserInfo
  rw [hu]
  dsimp only
  rw [if_pos hpw]

theorem updateUserInfo_ignores_principal_witness :
    updateUserInfo [alice, bob] "id1" "E" "b@x.com" "q" "5" =
      ([alice, { bob with name := "E", phoneNumber := "5" }],
       .ok { bob with name := "E", phoneNumber := "5" }) := by
  have h := (updateUserInfo_ignores_principal [alice, bob] "id1" "id9"
    "E" "b@x.com" "q" "5").2 bob (by decide) rfl
  simpa using h

/-- Handler for `GET /admin-all-users` (user.js lines 300-309):
`User.find().sort({ createdAt: -1 })` — the whole collection, most
recently created first. -/
def adminAllUsers (db : List User) : List User :=
  db.mergeSort (fun a b => decide (b.createdAt ≤ a.createdAt))

/-- C8: the admin listing is a permutation of the collection (every user
exactly once) ordered by descending creation timestamp. -/
theorem adminAllUsers_sorted_perm (db : List User) :
    (adminAllUsers db).Perm db ∧
    (adminAllUsers db).Pairwise (fun a b => b.createdAt ≤ a.createdAt) := by
  constructor
  · exact List.mergeSort_perm db _
  · have h := @List.sorted_mergeSort User
      (fun a b : User => decide (b.createdAt ≤ a.createdAt))
      (fun a b c hab hbc => by
        simp only [decide_eq_true_eq] at *
        omega)
      (fun a b => by
        rcases Nat.le_total b.createdAt a.createdAt with h | h <;>
          simp [h])
      db
    exact h.imp (fun hab => by simpa using hab)

/-- Handler for `DELETE /delete-user/:id` (user.js lines 312-333).  `destroyOk`
models the outcome of the awaited `cloudinary.uploader.destroy` call
(`false`: the image host fails, and the rejection surfaces through
`catchAsyncErrors` as a request error).  Source order: `findById`, 404
when absent, read `user.avatar.public_id` (a `TypeError` when the user
has no avatar), await the destroy, and only then
`User.findByIdAndDelete(id)`. -/
def adminDeleteUser (db : List User) (cloud : List String)
    (destroyOk : Bool) (id : String) :
    (List User × List String) × Except (String × Nat) String :=
  match findById db id with
  | none => ((db, cloud), .error ("User not found", 404))
  | some u =>
    match u.avatar with
    | none => ((db, cloud), .error ("TypeError: avatar is undefined", 500))
    | some av =>
      if destroyOk then
        ((db.filter (fun v => !(v._id == id)),
          cloudDestroy cloud av.public_id),
         .ok "User deleted successfully")
      else ((db, cloud), .error ("cloudinary destroy failed", 500))

/-- C10: in admin delete-user the avatar read and the image-host
deletion precede the database removal, so when either fails — in
particular for a user with no avatar, or when the image host errors —
the request fails and the user document is still in the collection,
with the whole state unchanged. -/
theorem adminDeleteUser_fail_keeps_user (db : List User)
    (cloud : List String) (destroyOk : Bool) (id : String) (u : User)
    (hu : findById db id = some u)
    (hfail : u.avatar = none ∨ destroyOk = false) :
    (adminDeleteUser db cloud destroyOk id).1 = (db, cloud) ∧
    (adminDeleteUser db cloud destroyOk id).2.isOk = false ∧
    findById (adminDeleteUser db cloud destroyOk id).1.1 id = some u := by
  have hres : adminDeleteUser db cloud destroyOk id =
      ((db, cloud), (adminDeleteUser db cloud destroyOk id).2) ∧
      (adminDeleteUser db cloud destroyOk id).2.isOk = false := by
    unfold adminDeleteUser
    rw [hu]
    dsimp only
    rcases hfail with hnone | hdes
    · rw [hnone]
      exact ⟨rfl, rfl⟩
    · cases hav : u.avatar with
      | none => exact ⟨rfl, rfl⟩
      | some av =>
        dsimp only
        rw [if_neg (by simp [hdes])]
        exact ⟨rfl, rfl⟩
  refine ⟨?_, hres.2, ?_⟩
  · rw [hres.1]
  · rw [hres.1]
    exact hu

theorem adminDeleteUser_fail_keeps_user_witness :
    (adminDeleteUser [carol] [] true "id3").1 = ([carol], []) ∧
    (adminDeleteUser [carol] [] true "id3").2.isOk = false ∧
    findById (adminDeleteUser [carol] [] true "id3").1.1 "id3" =
      some carol :=
  adminDeleteUser_fail_keeps_user [carol] [] true "id3" carol (by decide)
    (Or.inl rfl)

end Shopiva
